import Mathlib

/-!
# Verification of the AgiFlow powertool MCP proxy core

A shallow embedding of the configuration-resolution, merging, OAuth-callback,
and proxy/reload logic of the `@agiflowai/powertool` package, together with
theorems settling the specification claims.

Conventions of the embedding:
* JavaScript plain objects used as string-keyed records are modelled as
  association lists `List (String × V)`; `lookupRec` is property access,
  `jsSpread base ov` is the object spread `\x7b ...base, ...ov \x7d`, and
  `setRec` is `obj[k] = v` (overwrite in place, append when fresh).
* JSON values (the raw configuration payloads) are the inductive `Json`.
* Fallible JS code (zod `.parse`, thrown errors) is modelled with
  `Option`/`Except`; a `try/catch` becomes a `match` on the result.
* `async` sequencing is modelled as sequential execution in source order,
  the standard event-loop-deterministic idealisation.
-/

set_option autoImplicit false

namespace PowerTool

/-! ## JavaScript record primitives -/

/-- Property lookup on a JS object modelled as an association list.
JS objects have unique keys, so "first match" agrees with property access. -/
def lookupRec {V : Type} : List (String × V) → String → Option V
  | [], _ => none
  | (k, v) :: rest, key => if k = key then some v else lookupRec rest key

/-- Keys of a JS record, in insertion order (`Object.keys`). -/
def keysOf {V : Type} (m : List (String × V)) : List String :=
  m.map (·.1)

/-- The JS object spread `\x7b ...base, ...ov \x7d`: keys of `base` keep their
position but take `ov`'s value when `ov` has the key; keys only in `ov` are
appended in `ov`'s order. -/
def jsSpread {V : Type} (base ov : List (String × V)) : List (String × V) :=
  base.map (fun p => ((p.1, (lookupRec ov p.1).getD p.2) : String × V))
    ++ ov.filter (fun p => (lookupRec base p.1).isNone)

/-- JS `obj[k] = v`: replace the value at `k` in place, or append `(k, v)`
when `k` is fresh. -/
def setRec {V : Type} (m : List (String × V)) (k : String) (v : V) : List (String × V) :=
  if (lookupRec m k).isSome then
    m.map (fun p => if p.1 = k then (p.1, v) else p)
  else
    m ++ [(k, v)]

/-- JS truthiness of a nullable string (`null`/`undefined` and `""` are falsy). -/
def jsTruthy : Option String → Bool
  | none => false
  | some s => s ≠ ""

theorem lookupRec_append {V : Type} (l₁ l₂ : List (String × V)) (k : String) :
    lookupRec (l₁ ++ l₂) k = (lookupRec l₁ k).orElse (fun _ => lookupRec l₂ k) := by
  induction l₁ with
  | nil => simp [lookupRec, Option.orElse]
  | cons p rest ih =>
      by_cases h : p.1 = k
      · simp [lookupRec, h, Option.orElse]
      · simp [lookupRec, h, ih, Option.orElse]

theorem lookupRec_map_override {V : Type} (base ov : List (String × V)) (k : String) :
    lookupRec (base.map (fun p => ((p.1, (lookupRec ov p.1).getD p.2) : String × V))) k
      = (lookupRec base k).map (fun v => (lookupRec ov k).getD v) := by
  induction base with
  | nil => simp [lookupRec]
  | cons p rest ih =>
      by_cases h : p.1 = k
      · simp [lookupRec, h]
      · simp [lookupRec, h, ih]

theorem lookupRec_filter_fresh {V : Type} (base ov : List (String × V)) (k : String) :
    lookupRec (ov.filter (fun p => (lookupRec base p.1).isNone)) k
      = if (lookupRec base k).isNone then lookupRec ov k else none := by
  induction ov with
  | nil => simp [lookupRec]
  | cons p rest ih =>
      by_cases hk : p.1 = k
      · subst hk
        by_cases hb : (lookupRec base p.1).isNone
        · simp [List.filter, hb, lookupRec, ih]
        · simp [List.filter, hb, lookupRec, ih]
      · by_cases hb : (lookupRec base p.1).isNone
        · simp [List.filter, hb, lookupRec, hk, ih]
        · simp [List.filter, hb, lookupRec, hk, ih]

/-- Lookup in a spread: the override wins, the base is the fallback. -/
theorem lookupRec_jsSpread {V : Type} (base ov : List (String × V)) (k : String) :
    lookupRec (jsSpread base ov) k
      = (lookupRec ov k).orElse (fun _ => lookupRec base k) := by
  unfold jsSpread
  rw [lookupRec_append, lookupRec_map_override, lookupRec_filter_fresh]
  cases hb : lookupRec base k with
  | none => cases ho : lookupRec ov k <;> simp [Option.orElse, hb, ho]
  | some v => cases ho : lookupRec ov k <;> simp [Option.orElse, hb, ho]

theorem keysOf_setRec_sub {V : Type} (m : List (String × V)) (k : String) (v : V)
    (n : String) (hn : n ∈ keysOf (setRec m k v)) : n ∈ keysOf m ∨ n = k := by
  unfold setRec at hn
  by_cases h : (lookupRec m k).isSome
  · simp only [h, if_true, keysOf, List.map_map] at hn
    rcases List.mem_map.mp hn with ⟨p, hp, hpe⟩
    by_cases hpk : p.1 = k
    · right
      simp [Function.comp, hpk] at hpe
      exact hpe.symm
    · left
      refine List.mem_map.mpr ⟨p, hp, ?_⟩
      simp [Function.comp, hpk] at hpe
      simpa using hpe
  · simp only [h, Bool.false_eq_true, if_false, keysOf] at hn
    rw [List.map_append] at hn
    rcases List.mem_append.mp hn with h1 | h1
    · exact Or.inl h1
    · right; simpa using h1

/-! ## JSON values

Model of the raw JSON payloads handed to `parseMcpConfig`
(`src/packages/powertool/src/utils/mcpConfigSchema.ts`). Objects are
association lists of fields; `JSON.parse` yields unique keys. -/

inductive Json where
  | str (s : String)
  | boolean (b : Bool)
  | num (n : Int)
  | arr (xs : List Json)
  | obj (fields : List (String × Json))

/-- The environment-variable map (`process.env`). -/
def EnvMap : Type := List (String × String)

/-! ## Environment-variable interpolation

`interpolateEnvVars` replaces every occurrence of the JS regex
`\$\x7b([^\x7d]+)\x7d` — a dollar, an open brace, one or more non-brace
characters, a close brace — by the environment value of the captured name,
keeping the token verbatim (with a warning on stderr, not modelled) when the
variable is unset. The recursion is structured on an explicit fuel argument
equal to the input length, which every step strictly decreases, so the
function is total and kernel-reducible; semantically it is the single
left-to-right scan the regex replace performs. -/

/-- One scanning step: `interpFuel` consumes at least one character per
recursive call. `takeWhile (· ≠ brace)` captures the `[^\x7d]+` group. -/
def interpFuel (env : EnvMap) : Nat → List Char → List Char
  | 0, cs => cs
  | _ + 1, [] => []
  | fuel + 1, '$' :: '{' :: rest =>
      let name := rest.takeWhile (fun c => c ≠ '}')
      if name.length < rest.length then
        -- a closing brace exists after at least `name`
        let rest' := rest.drop (name.length + 1)
        if name.isEmpty then
          -- `$\x7b\x7d`: the regex does not match (the group needs ≥ 1 char)
          '$' :: '{' :: '}' :: interpFuel env fuel rest'
        else
          match lookupRec env (String.mk name) with
          | some v => v.data ++ interpFuel env fuel rest'
          | none => '$' :: '{' :: (name ++ '}' :: interpFuel env fuel rest')
      else
        -- no closing brace anywhere: no further match is possible
        '$' :: '{' :: rest
  | fuel + 1, c :: rest => c :: interpFuel env fuel rest

/-- `interpolateEnvVars` from `mcpConfigSchema.ts`. -/
def interpolateEnvVars (env : EnvMap) (s : String) : String :=
  String.mk (interpFuel env s.data.length s.data)

/-- `interpolateEnvVarsInObject` on a string-valued record (`env`/`headers`):
values are interpolated, keys are not. -/
def interpRecord (env : EnvMap) (r : List (String × String)) : List (String × String) :=
  r.map (fun p => (p.1, interpolateEnvVars env p.2))

/-! ## zod schema primitives -/

/-- Effectful map over a list in the `Option` monad (zod parses an array or
record by parsing every member, failing as a whole if any member fails). -/
def mapMOpt {α β : Type} (f : α → Option β) : List α → Option (List β)
  | [] => some []
  | x :: xs =>
      match f x with
      | none => none
      | some y => (mapMOpt f xs).map (fun ys => y :: ys)

def zString : Json → Option String
  | .str s => some s
  | _ => none

def zBool : Json → Option Bool
  | .boolean b => some b
  | _ => none

def zStringArray : Json → Option (List String)
  | .arr xs => mapMOpt zString xs
  | _ => none

def zStringRecord : Json → Option (List (String × String))
  | .obj fs => mapMOpt (fun p => (zString p.2).map (fun v => (p.1, v))) fs
  | _ => none

/-- A required object field: absent or ill-typed fails the parse. -/
def zReqField {α : Type} (fs : List (String × Json)) (k : String) (p : Json → Option α) :
    Option α :=
  (lookupRec fs k).bind p

/-- An optional object field: absent is fine, present-but-ill-typed fails. -/
def zOptField {α : Type} (fs : List (String × Json)) (k : String) (p : Json → Option α) :
    Option (Option α) :=
  match lookupRec fs k with
  | none => some none
  | some v => (p v).map some

/-- Approximation of zod's `z.string().url()` check (`new URL(s)` succeeding):
a non-empty scheme followed by `://` somewhere in the string. No claim
depends on the exact WHATWG grammar. -/
def hasSchemeSep : List Char → Bool
  | ':' :: '/' :: '/' :: _ => true
  | _ :: rest => hasSchemeSep rest
  | [] => false

def zodUrlOk (s : String) : Bool :=
  match s.data with
  | [] => false
  | ':' :: _ => false
  | _ :: rest => hasSchemeSep rest

/-! ## Claude Code configuration schema (`mcpConfigSchema.ts`) -/

/-- Output of `ClaudeCodeStdioServerSchema`. -/
structure RawStdio where
  command : String
  args : Option (List String)
  env : Option (List (String × String))
  disabled : Option Bool
  instruction : Option String
deriving DecidableEq

/-- The `type` enum of `ClaudeCodeHttpServerSchema`. -/
inductive HType where
  | http
  | sse
deriving DecidableEq

def zHType : Json → Option HType
  | .str "http" => some .http
  | .str "sse" => some .sse
  | _ => none

/-- Output of `ClaudeCodeHttpServerSchema`. -/
structure RawHttp where
  url : String
  headers : Option (List (String × String))
  htype : Option HType
  disabled : Option Bool
  instruction : Option String
deriving DecidableEq

/-- Output of the union `ClaudeCodeServerConfigSchema`. -/
inductive ClaudeEntry where
  | stdio (c : RawStdio)
  | http (c : RawHttp)
deriving DecidableEq

def claudeStdioParse : Json → Option RawStdio
  | .obj fs => do
      let command ← zReqField fs "command" zString
      let args ← zOptField fs "args" zStringArray
      let env ← zOptField fs "env" zStringRecord
      let disabled ← zOptField fs "disabled" zBool
      let instruction ← zOptField fs "instruction" zString
      some { command, args, env, disabled, instruction }
  | _ => none

def claudeHttpParse : Json → Option RawHttp
  | .obj fs => do
      let url ← zReqField fs "url" zString
      if zodUrlOk url then
        let headers ← zOptField fs "headers" zStringRecord
        let htype ← zOptField fs "type" zHType
        let disabled ← zOptField fs "disabled" zBool
        let instruction ← zOptField fs "instruction" zString
        some { url, headers, htype, disabled, instruction }
      else
        none
  | _ => none

/-- `z.union` tries the stdio schema first, then the http/sse schema. -/
def claudeServerParse (j : Json) : Option ClaudeEntry :=
  match claudeStdioParse j with
  | some c => some (.stdio c)
  | none => (claudeHttpParse j).map .http

/-- Output of `ClaudeCodeMcpConfigSchema`. -/
structure ClaudeConfig where
  mcpServers : List (String × ClaudeEntry)
deriving DecidableEq

def claudeConfigParse (j : Json) : Option ClaudeConfig :=
  match j with
  | .obj fs =>
      match lookupRec fs "mcpServers" with
      | some (.obj entries) =>
          (mapMOpt (fun p => (claudeServerParse p.2).map (fun e => (p.1, e))) entries).map
            ClaudeConfig.mk
      | _ => none
  | _ => none

/-- The `disabled` flag of a raw entry. -/
def entryDisabledFlag : ClaudeEntry → Option Bool
  | .stdio c => c.disabled
  | .http c => c.disabled

/-! ## Internal configuration shape -/

inductive Transport where
  | stdio
  | http
  | sse
deriving DecidableEq

def Transport.toStr : Transport → String
  | .stdio => "stdio"
  | .http => "http"
  | .sse => "sse"

/-- The transport-specific `config` object of an internal entry. JS objects
are property bags, so the fields of both variants coexist (`merge-deep` can
even combine them); schema validation constrains which must be present. -/
structure EntryConfig where
  command : Option String
  args : Option (List String)
  env : Option (List (String × String))
  url : Option String
  headers : Option (List (String × String))
deriving DecidableEq

/-- One entry of the internal (normalised) configuration. -/
structure InternalEntry where
  name : String
  instruction : Option String
  transport : Transport
  config : EntryConfig
deriving DecidableEq

/-- `RemoteMcpConfiguration` / output of `InternalMcpConfigSchema`. -/
structure InternalConfig where
  mcpServers : List (String × InternalEntry)
deriving DecidableEq

/-- `transformClaudeCodeConfig` on a single entry: `none` means the entry is
skipped because its `disabled` flag is `true`. -/
def transformEntry (env : EnvMap) (name : String) : ClaudeEntry → Option InternalEntry
  | .stdio sc =>
      if sc.disabled = some true then none
      else
        some
          { name
            instruction := sc.instruction
            transport := .stdio
            config :=
              { command := some (interpolateEnvVars env sc.command)
                args := sc.args.map (List.map (interpolateEnvVars env))
                env := sc.env.map (interpRecord env)
                url := none
                headers := none } }
  | .http hc =>
      if hc.disabled = some true then none
      else
        some
          { name
            instruction := hc.instruction
            transport := if hc.htype = some .sse then .sse else .http
            config :=
              { command := none
                args := none
                env := none
                url := some (interpolateEnvVars env hc.url)
                headers := hc.headers.map (interpRecord env) } }

/-- `transformClaudeCodeConfig`: iterate the raw entries in order, skip
disabled ones, and assign `transformedServers[serverName] = ...`. -/
def transformClaudeCodeConfig (env : EnvMap) (cc : ClaudeConfig) : InternalConfig :=
  ⟨cc.mcpServers.foldl
    (fun acc p =>
      match transformEntry env p.1 p.2 with
      | none => acc
      | some ie => setRec acc p.1 ie)
    []⟩

/-- `InternalMcpConfigSchema` on one entry: the discriminated union keyed on
`transport` requires the variant's own connection field and strips the other
variant's fields from the `config` object. -/
def validateEntry (e : InternalEntry) : Option InternalEntry :=
  match e.transport with
  | .stdio =>
      e.config.command.map (fun c =>
        { e with
          config :=
            { command := some c, args := e.config.args, env := e.config.env
              url := none, headers := none } })
  | .http =>
      match e.config.url with
      | some u =>
          if zodUrlOk u then
            some
              { e with
                config :=
                  { command := none, args := none, env := none
                    url := some u, headers := e.config.headers } }
          else none
      | none => none
  | .sse =>
      match e.config.url with
      | some u =>
          if zodUrlOk u then
            some
              { e with
                config :=
                  { command := none, args := none, env := none
                    url := some u, headers := e.config.headers } }
          else none
      | none => none

/-- `InternalMcpConfigSchema.parse` over the whole record. -/
def validateConfig (c : InternalConfig) : Option InternalConfig :=
  (mapMOpt (fun p => (validateEntry p.2).map (fun e => (p.1, e))) c.mcpServers).map
    InternalConfig.mk

/-- `parseMcpConfig` from `mcpConfigSchema.ts`: validate against the Claude
Code schema, transform to the internal shape, validate the result. `none`
models the thrown `ZodError`. -/
def parseMcpConfig (env : EnvMap) (raw : Json) : Option InternalConfig :=
  ((claudeConfigParse raw).map (transformClaudeCodeConfig env)).bind validateConfig

/-! ## The JS value of an internal configuration

`internalToJson` is the plain JS object a parsed configuration is — what gets
handed to `parseMcpConfig` if its own output is fed back in. Keys whose value
is `undefined` behave as absent for zod, so they are omitted. -/

def optJsonField (k : String) : Option Json → List (String × Json)
  | none => []
  | some j => [(k, j)]

def strRecordToJson (r : List (String × String)) : Json :=
  .obj (r.map (fun p => (p.1, .str p.2)))

def entryConfigToJson (c : EntryConfig) : Json :=
  .obj
    (optJsonField "command" (c.command.map .str)
      ++ optJsonField "args" (c.args.map (fun l => .arr (l.map .str)))
      ++ optJsonField "env" (c.env.map strRecordToJson)
      ++ optJsonField "url" (c.url.map .str)
      ++ optJsonField "headers" (c.headers.map strRecordToJson))

def entryToJson (e : InternalEntry) : Json :=
  .obj
    ([("name", Json.str e.name)]
      ++ optJsonField "instruction" (e.instruction.map .str)
      ++ [("transport", Json.str e.transport.toStr),
          ("config", entryConfigToJson e.config)])

def internalToJson (c : InternalConfig) : Json :=
  .obj [("mcpServers", .obj (c.mcpServers.map (fun p => (p.1, entryToJson p.2))))]

/-! ## Configuration merging (`ConfigFetcherService.mergeConfigurations`) -/

inductive MergeStrategy where
  | localPriority
  | remotePriority
  | mergeDeep
deriving DecidableEq

/-- The `merge-deep` combination of the two transport-specific `config`
objects: spread remote then local, then merge `env` and `headers` key-by-key
when either side has them. -/
def deepMergeEntryConfig (remoteCfg localCfg : EntryConfig) : EntryConfig :=
  let base : EntryConfig :=
    { command := (localCfg.command).orElse (fun _ => remoteCfg.command)
      args := (localCfg.args).orElse (fun _ => remoteCfg.args)
      env := (localCfg.env).orElse (fun _ => remoteCfg.env)
      url := (localCfg.url).orElse (fun _ => remoteCfg.url)
      headers := (localCfg.headers).orElse (fun _ => remoteCfg.headers) }
  let envF :=
    if remoteCfg.env.isSome || localCfg.env.isSome then
      some (jsSpread (remoteCfg.env.getD []) (localCfg.env.getD []))
    else base.env
  let headersF :=
    if remoteCfg.headers.isSome || localCfg.headers.isSome then
      some (jsSpread (remoteCfg.headers.getD []) (localCfg.headers.getD []))
    else base.headers
  { base with env := envF, headers := headersF }

/-- `mergeConfigurations(localConfig, remoteConfig)`. -/
def mergeConfigurations (strategy : MergeStrategy)
    (localConfig remoteConfig : InternalConfig) : InternalConfig :=
  match strategy with
  | .localPriority => ⟨jsSpread remoteConfig.mcpServers localConfig.mcpServers⟩
  | .remotePriority => ⟨jsSpread localConfig.mcpServers remoteConfig.mcpServers⟩
  | .mergeDeep =>
      ⟨localConfig.mcpServers.foldl
        (fun merged p =>
          match lookupRec merged p.1 with
          | some remoteServer =>
              setRec merged p.1
                { p.2 with config := deepMergeEntryConfig remoteServer.config p.2.config }
          | none => merged ++ [(p.1, p.2)])
        remoteConfig.mcpServers⟩

/-! ## `fetchConfiguration` (`ConfigFetcherService.ts`)

The I/O outcome of each source (file read / HTTP fetch followed by
`parseMcpConfig`) is the mode's `Json` payload; `none` models any thrown
error. The `config.mcpServers` object check after merging is vacuous in the
typed model. Cache handling (pure TTL bookkeeping) does not affect which
entries appear and is not modelled. -/

inductive FetchMode where
  | localOnly (raw : Json)
  | remoteOnly (raw : Json)
  | both (localRaw remoteRaw : Json) (strategy : MergeStrategy)

def fetchConfigurationModel (env : EnvMap) : FetchMode → Option InternalConfig
  | .localOnly raw => parseMcpConfig env raw
  | .remoteOnly raw => parseMcpConfig env raw
  | .both localRaw remoteRaw strategy => do
      let localConfig ← parseMcpConfig env localRaw
      let remoteConfig ← parseMcpConfig env remoteRaw
      some (mergeConfigurations strategy localConfig remoteConfig)

/-! ## OAuth callback server (`OAuthCallbackServer.ts`)

The server's mutable `sessions` map is a `SessionMap`; a request handler is a
state transition returning the new map, the HTTP response to the requester,
and the responses sent to long-poll waiters it releases (pairs of the parked
response's identifier and the status written to it). -/

structure SessionData where
  state : String
  authCode : Option String
  authError : Option String
  waitingClients : List Nat
  createdAt : Nat
deriving DecidableEq

def SessionMap : Type := List (String × SessionData)

/-- Which branch of the handler produced the response (stands in for the
response body, whose HTML text plays no role in the control flow). -/
inductive RespKind where
  | missingState
  | invalidStateFormat
  | invalidSession
  | stateMismatch
  | authSuccess
  | authFailed
  | missingCodeOrError
  | waitMissingSession
  | waitUnknownSession
  | waitCompleted
  | waitError
  | waitPending
deriving DecidableEq

structure HttpResponse where
  status : Nat
  kind : RespKind
deriving DecidableEq

/-- JS `String.prototype.split(':')`. -/
def jsSplitColonAux : List Char → List Char → List String
  | acc, [] => [String.mk acc.reverse]
  | acc, ':' :: rest => String.mk acc.reverse :: jsSplitColonAux [] rest
  | acc, c :: rest => jsSplitColonAux (c :: acc) rest

def jsSplitColon (s : String) : List String :=
  jsSplitColonAux [] s.data

/-- Update the session stored under `sid` (object mutation through the map). -/
def updateSession (m : SessionMap) (sid : String) (f : SessionData → SessionData) :
    SessionMap :=
  m.map (fun p => if p.1 = sid then (p.1, f p.2) else p)

/-- The `GET /oauth/callback` handler. `code`, `err`, `stateP` are the query
parameters (`searchParams.get`, `none` when absent). -/
def handleOAuthCallback (sessions : SessionMap) (code err stateP : Option String) :
    SessionMap × HttpResponse × List (Nat × Nat) :=
  if ¬ jsTruthy stateP then
    (sessions, ⟨400, .missingState⟩, [])
  else
    match jsSplitColon (stateP.getD "") with
    | sid :: sv :: _ =>
        if sid = "" ∨ sv = "" then
          (sessions, ⟨400, .invalidStateFormat⟩, [])
        else
          match lookupRec sessions sid with
          | none => (sessions, ⟨400, .invalidSession⟩, [])
          | some sess =>
              if sess.state ≠ sv then
                (sessions, ⟨403, .stateMismatch⟩, [])
              else if jsTruthy code then
                (updateSession sessions sid
                    (fun s => { s with authCode := code, waitingClients := [] }),
                  ⟨200, .authSuccess⟩,
                  sess.waitingClients.map (fun w => (w, 200)))
              else if jsTruthy err then
                (updateSession sessions sid
                    (fun s => { s with authError := err, waitingClients := [] }),
                  ⟨400, .authFailed⟩,
                  sess.waitingClients.map (fun w => (w, 400)))
              else
                (sessions, ⟨400, .missingCodeOrError⟩, [])
    | _ => (sessions, ⟨400, .invalidStateFormat⟩, [])

/-- The `GET /wait-for-auth` handler. `reqId` identifies the response object
should it be parked; `none` as second component means the request was parked
for long-polling rather than answered immediately. -/
def handleWaitForAuth (sessions : SessionMap) (reqId : Nat)
    (sessionId pollParam : Option String) : SessionMap × Option HttpResponse :=
  let poll := pollParam ≠ some "false"
  if ¬ jsTruthy sessionId then
    (sessions, some ⟨400, .waitMissingSession⟩)
  else
    match lookupRec sessions (sessionId.getD "") with
    | none => (sessions, some ⟨404, .waitUnknownSession⟩)
    | some sess =>
        if jsTruthy sess.authCode then
          (sessions, some ⟨200, .waitCompleted⟩)
        else if jsTruthy sess.authError then
          (sessions, some ⟨400, .waitError⟩)
        else if poll then
          (updateSession sessions (sessionId.getD "")
              (fun s => { s with waitingClients := s.waitingClients ++ [reqId] }),
            none)
        else
          (sessions, some ⟨202, .waitPending⟩)

/-! ## Lockfile coordination (`LockfileService.ts`) -/

structure LockfileData where
  pid : Nat
  port : Nat
  timestamp : Nat
  serverUrl : String
deriving DecidableEq

/-- 30 minutes, the `MAX_LOCK_AGE` of `isLockValid`. -/
def maxLockAge : Nat := 30 * 60 * 1000

/-- `isLockValid`: fresh enough and the recorded pid answers signal 0. -/
def isLockValid (now : Nat) (pidAlive : Bool) (lock : LockfileData) : Bool :=
  if now - lock.timestamp > maxLockAge then false else pidAlive

/-- `isEndpointAccessible`: probe `GET /wait-for-auth?poll=false` — with no
`sessionId` parameter — against the OAuth callback server listening on the
lock's port (its session table is `sessions`), and accept 200/202. -/
def isEndpointAccessible (sessions : SessionMap) : Bool :=
  match (handleWaitForAuth sessions 0 none (some "false")).2 with
  | some r => r.status == 200 || r.status == 202
  | none => false

structure CheckLockResult where
  returned : Option LockfileData
  lockfileDeleted : Bool
deriving DecidableEq

/-- `checkLockfile`: read the lockfile (`none` when absent or unreadable),
keep it only when both liveness checks pass, otherwise delete it and report
no lock. -/
def checkLockfile (lockData : Option LockfileData) (now : Nat) (pidAlive : Bool)
    (sessions : SessionMap) : CheckLockResult :=
  match lockData with
  | none => ⟨none, false⟩
  | some ld =>
      let isValid := isLockValid now pidAlive ld
      let isAccessible := isEndpointAccessible sessions
      if isValid && isAccessible then ⟨some ld, false⟩
      else ⟨none, true⟩

/-! ## Proxy server core (`server/index.ts`) -/

/-- A tool definition as listed to the client; only the name takes part in
counting, routing and interception, so the schema/description payload of
`getDefinition()` is not carried. -/
structure ToolDef where
  name : String
deriving DecidableEq

def reloadToolDef : ToolDef := ⟨"reload_config"⟩

def describeToolsDef : ToolDef := ⟨"describe_tools"⟩

def useToolDef : ToolDef := ⟨"use_tool"⟩

def optToList {α : Type} : Option α → List α
  | none => []
  | some a => [a]

/-- The free variables the `ListToolsRequestSchema` handler closes over:
the mode flags, the three nullable tool objects, and for each connected
client the outcome of `client.listTools()`. `qualifyNames` is the source's
`useServerPrefix` option. -/
structure ListToolsEnv where
  progressive : Bool
  reloadTool : Option ToolDef
  describeTools : Option ToolDef
  useToolTool : Option ToolDef
  clients : List (String × Except String (List ToolDef))
  qualifyNames : Bool

/-- The list-tools handler, `server/index.ts` lines 146-191. -/
def listToolsHandler (env : ListToolsEnv) : List ToolDef :=
  if env.progressive then
    optToList env.reloadTool ++ optToList env.describeTools ++ optToList env.useToolTool
  else
    optToList env.reloadTool
      ++ (env.clients.map (fun p =>
            match p.2 with
            | .ok ts =>
                ts.map (fun t =>
                  if env.qualifyNames then { t with name := p.1 ++ "/" ++ t.name } else t)
            | .error _ => [])).flatten

/-- The handler environment as it stands after `createServerWithReload`
returns with `progressive: true`: the reload tool and both meta-tools have
been instantiated (lines 617-623). -/
def progressiveListTools (clients : List (String × Except String (List ToolDef)))
    (qualify : Bool) : List ToolDef :=
  listToolsHandler
    { progressive := true
      reloadTool := some reloadToolDef
      describeTools := some describeToolsDef
      useToolTool := some useToolDef
      clients
      qualifyNames := qualify }

/-! ## Server startup (`createServerWithReload`, lines 114-143) -/

/-- The I/O behaviours startup depends on: the outcome of
`configFetcher.fetchConfiguration()`, of `connectToServer` per backend name,
and of `saveErrorLog` (path of the written log file on success). -/
structure InitEnv where
  fetchResult : Except String (List (String × InternalEntry))
  connectResult : String → Except String Unit
  saveErrorLogResult : Except String String

structure InitResult where
  connectedClients : List String
  errorLogSaved : Option String
deriving DecidableEq

/-- The startup configuration-fetch-and-connect phase. Per-backend connect
failures are caught and logged (line 123), the backend is skipped. A fetch
failure reaches the outer catch, which tries `saveErrorLog` (itself guarded
by an inner catch) and then continues initialisation with no remote servers,
so the function never propagates the error. -/
def initModel (env : InitEnv) : Except String InitResult :=
  match env.fetchResult with
  | .ok cfg =>
      .ok
        { connectedClients :=
            cfg.filterMap (fun p =>
              match env.connectResult p.1 with
              | .ok _ => some p.1
              | .error _ => none)
          errorLogSaved := none }
  | .error _ =>
      match env.saveErrorLogResult with
      | .ok path => .ok { connectedClients := [], errorLogSaved := some path }
      | .error _ => .ok { connectedClients := [], errorLogSaved := none }

/-! ## The reload operation (`server/index.ts`, lines 403-613)

Capability items (tools/resources/prompts of a backend) are abstracted to
their optional `name`/`uri` sort key plus an opaque serialized payload; the
source compares `JSON.stringify` of the name-sorted arrays, which on this
model is structural equality of the sorted lists. `sendLoggingMessage` and
the three `send*ListChanged` notifications are protocol writes of the proxy's
own server object — not behaviours of the fetcher or the backend clients —
and are modelled as non-throwing. -/

structure CapItem where
  name : Option String
  payload : String
deriving DecidableEq

/-- `.catch(() => [])` around a snapshot call. -/
def catchEmpty (r : Except String (List CapItem)) : List CapItem :=
  match r with
  | .ok l => l
  | .error _ => []

/-- Comparator key order for `(a, b) => a.name?.localeCompare(b.name) || 0`:
an absent name compares as 0 (keep relative order); `localeCompare` is
approximated by code-point order, which no claim depends on. -/
def itemLE (a b : CapItem) : Bool :=
  match a.name, b.name with
  | none, _ => true
  | some _, none => true
  | some na, some nb => na ≤ nb

def insertByName (x : CapItem) : List CapItem → List CapItem
  | [] => [x]
  | y :: ys => if itemLE y x then y :: insertByName x ys else x :: y :: ys

/-- Stable sort by name, as `Array.prototype.sort` (stable per spec). -/
def sortByName : List CapItem → List CapItem
  | [] => []
  | x :: xs => insertByName x (sortByName xs)

def dedupAux (seen : List String) : List String → List String
  | [] => []
  | x :: xs => if seen.contains x then dedupAux seen xs else x :: dedupAux (x :: seen) xs

/-- `[...new Set(l)]`: first occurrences, in order. -/
def dedupFirst (l : List String) : List String :=
  dedupAux [] l

structure ReloadContext where
  taskId : Option String
  workUnitId : Option String
  projectId : Option String

/-- The behaviours reload depends on: the connected backend set, each old
client's snapshot outcomes, the configuration fetch, per-name disconnect and
connect outcomes, and each surviving/new client's snapshot outcomes. -/
structure CapSnapshot where
  toolsR : Except String (List CapItem)
  resourcesR : Except String (List CapItem)
  promptsR : Except String (List CapItem)

structure ReloadEnv where
  oldClients : List String
  oldSnap : String → CapSnapshot
  fetchResult : Except String (List (String × InternalEntry))
  disconnectResult : String → Except String Unit
  connectResult : String → Except String Unit
  newSnap : String → CapSnapshot

structure ReloadResult where
  success : Bool
  message : String
  connected : List String
  failed : List String
deriving DecidableEq

/-- `contextInfo` of lines 412-418 (ternary chain on JS truthiness). -/
def contextInfoStr : Option ReloadContext → String
  | none => "default"
  | some c =>
      if jsTruthy c.taskId then "taskId=" ++ c.taskId.getD ""
      else if jsTruthy c.workUnitId then "workUnitId=" ++ c.workUnitId.getD ""
      else if jsTruthy c.projectId then "projectId=" ++ c.projectId.getD ""
      else "default"

/-- Lines 427-446: the `AGIFLOW_MCP_CONFIG_URL` value written into the
process environment when the reload context narrows the scope (`none` when
the environment is left untouched). -/
def reloadUpdatedConfigUrl (baseUrl organizationId : Option String)
    (ctx : Option ReloadContext) : Option String :=
  match ctx with
  | none => none
  | some c =>
      if jsTruthy c.taskId ∨ jsTruthy c.projectId then
        match baseUrl, organizationId with
        | some b, some o =>
            if jsTruthy (some b) ∧ jsTruthy (some o) then
              if jsTruthy c.taskId then
                some (b ++ "/api/v1/organizations/" ++ o ++ "/tasks/"
                  ++ c.taskId.getD "" ++ "/mcp-configs")
              else if jsTruthy c.projectId then
                some (b ++ "/api/v1/organizations/" ++ o ++ "/projects/"
                  ++ c.projectId.getD "" ++ "/mcp-configs")
              else some (b ++ "/api/v1/organizations/" ++ o ++ "/mcp-configs")
            else none
        | _, _ => none
      else none

structure ReconnectState where
  mgr : List String
  connected : List String
  failed : List String

/-- One iteration of the reconnect loop (lines 498-513): force-disconnect a
retained name (a `close()` failure is caught by the per-entry handler and
leaves the client in the manager's map), then connect; `connectToServer`
itself throws if the name is still connected. -/
def reconnectStep (env : ReloadEnv) (oldNames : List String) (st : ReconnectState)
    (name : String) : ReconnectState :=
  if oldNames.contains name then
    match env.disconnectResult name with
    | .error _ => { st with failed := st.failed ++ [name] }
    | .ok _ =>
        let mgr' := st.mgr.erase name
        if mgr'.contains name then
          { st with mgr := mgr', failed := st.failed ++ [name] }
        else
          match env.connectResult name with
          | .ok _ =>
              { mgr := mgr' ++ [name], connected := st.connected ++ [name]
                failed := st.failed }
          | .error _ => { st with mgr := mgr', failed := st.failed ++ [name] }
  else
    if st.mgr.contains name then
      { st with failed := st.failed ++ [name] }
    else
      match env.connectResult name with
      | .ok _ =>
          { mgr := st.mgr ++ [name], connected := st.connected ++ [name]
            failed := st.failed }
      | .error _ => { st with failed := st.failed ++ [name] }

/-- The whole `reload` closure. The outer `try/catch` is the top-level
`match` on `fetchResult`: within the modelled behaviour space the
configuration fetch is the only operation whose exception reaches the
catch-all (snapshots carry `.catch(() => [])`, disconnects and connects are
caught per entry), and at that point the `connected`/`failed` accumulators
are still empty. The catch returns a result instead of rethrowing, so the
function is total. -/
def reloadModel (env : ReloadEnv) (_ctx : Option ReloadContext) : ReloadResult :=
  -- lines 448-473: snapshot current capabilities, tolerating failures
  let oldTools := (env.oldClients.map (fun n => catchEmpty (env.oldSnap n).toolsR)).flatten
  let oldResources :=
    (env.oldClients.map (fun n => catchEmpty (env.oldSnap n).resourcesR)).flatten
  let oldPrompts :=
    (env.oldClients.map (fun n => catchEmpty (env.oldSnap n).promptsR)).flatten
  let oldToolsSorted := sortByName oldTools
  let oldResourcesSorted := sortByName oldResources
  let oldPromptsSorted := sortByName oldPrompts
  match env.fetchResult with
  | .error e =>
      { success := false
        message := "Failed to reload configuration: " ++ e
        connected := []
        failed := [] }
  | .ok newConfig =>
      -- lines 480-495: diff the name sets, disconnect removed servers
      let newNames := dedupFirst (keysOf newConfig)
      let serversAdded := newNames.filter (fun n => ¬ env.oldClients.contains n)
      let serversRemoved := env.oldClients.filter (fun n => ¬ newNames.contains n)
      let serversRetained := newNames.filter (fun n => env.oldClients.contains n)
      let mgrAfterRemoved :=
        env.oldClients.filter (fun n =>
          if serversRemoved.contains n then
            match env.disconnectResult n with
            | .ok _ => false
            | .error _ => true
          else true)
      -- lines 498-515: reconnect everything in the new configuration
      let finalSt :=
        newConfig.foldl (fun st p => reconnectStep env env.oldClients st p.1)
          ⟨mgrAfterRemoved, [], []⟩
      let connected := finalSt.connected
      let failed := finalSt.failed
      -- lines 517-544: snapshot again and compare sorted serialisations
      let newTools := (finalSt.mgr.map (fun n => catchEmpty (env.newSnap n).toolsR)).flatten
      let newResources :=
        (finalSt.mgr.map (fun n => catchEmpty (env.newSnap n).resourcesR)).flatten
      let newPrompts :=
        (finalSt.mgr.map (fun n => catchEmpty (env.newSnap n).promptsR)).flatten
      let toolsChanged := !(sortByName newTools == oldToolsSorted)
      let resourcesChanged := !(sortByName newResources == oldResourcesSorted)
      let promptsChanged := !(sortByName newPrompts == oldPromptsSorted)
      -- lines 562-585: change summary and result message
      let changeSummary :=
        (if serversAdded.length > 0 then
          ["Added servers: " ++ String.intercalate ", " serversAdded] else [])
        ++ (if serversRemoved.length > 0 then
          ["Removed servers: " ++ String.intercalate ", " serversRemoved] else [])
        ++ (if serversRetained.length > 0
              ∧ (serversAdded.length > 0 ∨ serversRemoved.length > 0) then
          ["Retained servers: " ++ toString serversRetained.length] else [])
        ++ (if toolsChanged then
          ["Tools: " ++ toString oldTools.length ++ " -> " ++ toString newTools.length]
          else [])
        ++ (if resourcesChanged then
          ["Resources: " ++ toString oldResources.length ++ " -> "
            ++ toString newResources.length] else [])
        ++ (if promptsChanged then
          ["Prompts: " ++ toString oldPrompts.length ++ " -> "
            ++ toString newPrompts.length] else [])
      let nc := connected.length
      let nf := failed.length
      let message :=
        "Reload complete. Connected: " ++ toString nc ++ ", Failed: " ++ toString nf
          ++ (if changeSummary.length > 0 then
                ". Changes: " ++ String.intercalate "; " changeSummary
              else "")
      { success := failed.length == 0
        message
        connected
        failed }

/-! ## `use_tool` (`UseToolTool.execute`, `tools/UseToolTool.ts`) -/

/-- A tool-call result: the `text` fields of the `content` array, plus the
`isError` flag (absent means `false`). -/
structure CallToolResult where
  contentTexts : List String
  isError : Bool
deriving DecidableEq

/-- A connected backend client as `use_tool` sees it: the outcome of
`listTools()` (tool names) and of `callTool(name, args)`. -/
structure ClientConn where
  listToolsR : Except String (List String)
  callToolR : String → Json → Except String CallToolResult

def serverNotFoundResult (serverName : String) (available : List String) : CallToolResult :=
  { contentTexts :=
      ["Server \"" ++ serverName ++ "\" not found. Available servers: "
        ++ String.intercalate ", " available]
    isError := true }

def callFailedOnServerResult (toolName serverName errMsg : String) : CallToolResult :=
  { contentTexts :=
      ["Failed to call tool \"" ++ toolName ++ "\" on server \"" ++ serverName
        ++ "\": " ++ errMsg]
    isError := true }

def toolNotFoundResult (toolName : String) : CallToolResult :=
  { contentTexts :=
      ["Tool \"" ++ toolName
        ++ "\" not found on any connected server. Use describe_tools to see available tools."]
    isError := true }

def ambiguousToolResult (toolName : String) (servers : List String) : CallToolResult :=
  { contentTexts :=
      ["Multiple servers provide tool \"" ++ toolName
        ++ "\". Please specify serverName. Available servers: "
        ++ String.intercalate ", " servers]
    isError := true }

def internalNotConnectedResult (serverName : String) : CallToolResult :=
  { contentTexts :=
      ["Internal error: Server \"" ++ serverName ++ "\" was found but is not connected"]
    isError := true }

def callFailedResult (toolName errMsg : String) : CallToolResult :=
  { contentTexts := ["Failed to call tool \"" ++ toolName ++ "\": " ++ errMsg]
    isError := true }

/-- `UseToolTool.execute`. -/
def useToolExecute (clients : List (String × ClientConn)) (toolName : String)
    (toolArgs : Json) (serverName : Option String) : CallToolResult :=
  if jsTruthy serverName then
    -- explicit serverName: route directly, no tool-list check
    let s := serverName.getD ""
    match lookupRec clients s with
    | none => serverNotFoundResult s (keysOf clients)
    | some conn =>
        match conn.callToolR toolName toolArgs with
        | .ok r => r
        | .error e => callFailedOnServerResult toolName s e
  else
    -- search every connected backend's tool list
    let matchingServers :=
      clients.filterMap (fun p =>
        match p.2.listToolsR with
        | .ok ts => if toolName ∈ ts then some p.1 else none
        | .error _ => none)
    match matchingServers with
    | [] => toolNotFoundResult toolName
    | [n] =>
        match lookupRec clients n with
        | none => internalNotConnectedResult n
        | some conn =>
            match conn.callToolR toolName toolArgs with
            | .ok r => r
            | .error e => callFailedResult toolName e
    | _ => ambiguousToolResult toolName matchingServers

/-! # Theorems settling the claims -/

/-! ## C3: merge symmetry and local-priority semantics -/

/-- **C3.** For every pair of configurations `A` (local) and `B` (remote),
merging with `local-priority` on `(A, B)` yields the same
backend-name-to-entry map as merging with `remote-priority` on the swapped
pair `(B, A)`; moreover same-named entries are taken wholesale from `A`
(`A`'s entry wins the lookup) and non-conflicting entries from both inputs
are kept (`B` is the fallback). -/
theorem merge_localPriority_eq_remotePriority_swapped
    (A B : InternalConfig) (k : String) :
    lookupRec (mergeConfigurations .localPriority A B).mcpServers k
        = lookupRec (mergeConfigurations .remotePriority B A).mcpServers k
      ∧ lookupRec (mergeConfigurations .localPriority A B).mcpServers k
        = (lookupRec A.mcpServers k).orElse (fun _ => lookupRec B.mcpServers k) := by
  refine ⟨rfl, ?_⟩
  simp [mergeConfigurations, lookupRec_jsSpread]

/-! ## C6: progressive mode exposes exactly the three meta-tools -/

/-- **C6.** With progressive mode enabled, the list-tools handler returns
exactly the `reload_config` tool and the two meta-tools `describe_tools` and
`use_tool`, whatever backends are connected and whatever tools they expose
(and whatever the prefixing flag is). -/
theorem progressive_listTools_exactly_meta
    (clients : List (String × Except String (List ToolDef))) (qualify : Bool) :
    progressiveListTools clients qualify
      = [⟨"reload_config"⟩, ⟨"describe_tools"⟩, ⟨"use_tool"⟩] :=
  rfl

/-! ## C9: a lockfile is never reported live -/

/-- **C9.** The liveness probe of `checkLockfile` requests
`GET /wait-for-auth?poll=false` with no `sessionId` parameter, which the
OAuth callback server answers with HTTP 400 whatever its session table
holds; hence `isEndpointAccessible` is `false` and `checkLockfile` deletes
the lockfile and returns null even when the recorded pid is alive and the
file is younger than the maximum age. -/
theorem checkLockfile_never_reports_live
    (sessions : SessionMap) (ld : LockfileData) (now : Nat) (pidAlive : Bool) :
    (handleWaitForAuth sessions 0 none (some "false")).2
        = some ⟨400, .waitMissingSession⟩
      ∧ isEndpointAccessible sessions = false
      ∧ checkLockfile (some ld) now pidAlive sessions = ⟨none, true⟩ := by
  refine ⟨rfl, rfl, ?_⟩
  simp [checkLockfile, isEndpointAccessible, handleWaitForAuth, jsTruthy, Bool.and_false]

/-! ## C1: startup survives a failed configuration fetch -/

/-- **C1.** If the initial configuration fetch throws,
`createServerWithReload` catches the error, attempts the diagnostic error
log (recording its path when the write succeeds), and still returns a
started proxy server with zero connected backends instead of propagating
the error. -/
theorem startup_fetch_failure_degrades (env : InitEnv) (e : String)
    (hf : env.fetchResult = .error e) :
    initModel env
      = .ok { connectedClients := [], errorLogSaved := env.saveErrorLogResult.toOption } := by
  unfold initModel
  rw [hf]
  cases h : env.saveErrorLogResult <;> simp [Except.toOption, h]

/-- Concrete startup environment whose configuration fetch fails and whose
error-log write succeeds. -/
def initEnvFetchFails : InitEnv :=
  { fetchResult := .error "Failed to fetch MCP configuration from URL: 500"
    connectResult := fun _ => .ok ()
    saveErrorLogResult := .ok "/tmp/mcp-powertool-logs/error-config-fetch.log" }

/-- **C1 witness.** The startup model at the concrete failing fetch: the
server comes up with no backends and the error-log path recorded. -/
theorem startup_fetch_failure_degrades_witness :
    initModel initEnvFetchFails
      = .ok { connectedClients := []
              errorLogSaved := some "/tmp/mcp-powertool-logs/error-config-fetch.log" } :=
  startup_fetch_failure_degrades initEnvFetchFails
    "Failed to fetch MCP configuration from URL: 500" rfl

/-! ## C4 and C5: OAuth callback CSRF rejection and session isolation -/

theorem lookupRec_updateSession_ne (m : SessionMap) (sid : String)
    (f : SessionData → SessionData) (other : String) (h : other ≠ sid) :
    lookupRec (updateSession m sid f) other = lookupRec m other := by
  induction m with
  | nil => rfl
  | cons p rest ih =>
      simp only [updateSession, List.map_cons] at ih ⊢
      by_cases hk : p.1 = sid
      · rw [if_pos hk]
        have hko : ¬ p.1 = other := fun he => h (he.symm.trans hk)
        simp only [lookupRec]
        rw [if_neg hko, if_neg hko]
        exact ih
      · rw [if_neg hk]
        simp only [lookupRec]
        by_cases hko : p.1 = other
        · rw [if_pos hko, if_pos hko]
        · rw [if_neg hko, if_neg hko]
          exact ih

/-- A state parameter that splits into at least two parts is not empty. -/
theorem stateParam_ne_empty (stateP : String) (sid sv : String) (rest : List String)
    (hsplit : jsSplitColon stateP = sid :: sv :: rest) : stateP ≠ "" := by
  intro h
  subst h
  simp [jsSplitColon, jsSplitColonAux] at hsplit

/-- **C4.** A callback whose `state` decodes as `sessionId:stateValue` where
the session exists but `stateValue` differs from the session's stored state
is answered with HTTP 403 and has no effect: the session table is unchanged
(no auth code or error recorded) and no parked waiter is released. -/
theorem oauthCallback_csrf_rejects (sessions : SessionMap) (code err : Option String)
    (stateP sid sv : String) (rest : List String)
    (hsplit : jsSplitColon stateP = sid :: sv :: rest)
    (hsid : sid ≠ "") (hsv : sv ≠ "")
    (sess : SessionData) (hlook : lookupRec sessions sid = some sess)
    (hne : sess.state ≠ sv) :
    handleOAuthCallback sessions code err (some stateP)
      = (sessions, ⟨403, .stateMismatch⟩, []) := by
  have h0 : stateP ≠ "" := stateParam_ne_empty stateP sid sv rest hsplit
  simp [handleOAuthCallback, jsTruthy, h0, hsplit, hsid, hsv, hlook, hne]

/-- Session table for the C4/C5 witnesses: two sessions `A` and `B`, each
with one parked waiter. -/
def twoSessionTable : SessionMap :=
  [("sessA", { state := "stA", authCode := none, authError := none
               waitingClients := [11], createdAt := 0 }),
   ("sessB", { state := "stB", authCode := none, authError := none
               waitingClients := [22], createdAt := 0 })]

/-- **C4 witness.** A callback for session `A` carrying the wrong state
value is rejected with 403, releasing no waiter and changing nothing. -/
theorem oauthCallback_csrf_rejects_witness :
    handleOAuthCallback twoSessionTable (some "authcode") none (some "sessA:wrong")
      = (twoSessionTable, ⟨403, .stateMismatch⟩, []) :=
  oauthCallback_csrf_rejects twoSessionTable (some "authcode") none
    "sessA:wrong" "sessA" "wrong" [] (by decide) (by decide) (by decide)
    { state := "stA", authCode := none, authError := none
      waitingClients := [11], createdAt := 0 }
    (by decide) (by decide)

/-- **C5.** A successful callback for session `A` records the code on `A`,
answers 200, and releases exactly `A`'s parked waiters; every other
session's entry — its stored state, code/error fields, and parked waiting
clients — is unchanged. -/
theorem oauthCallback_session_isolation (sessions : SessionMap) (err : Option String)
    (stateP sid sv : String) (rest : List String)
    (hsplit : jsSplitColon stateP = sid :: sv :: rest)
    (hsid : sid ≠ "") (hsv : sv ≠ "")
    (sess : SessionData) (hlook : lookupRec sessions sid = some sess)
    (hst : sess.state = sv) (c : String) (hc : c ≠ "") :
    handleOAuthCallback sessions (some c) err (some stateP)
        = (updateSession sessions sid
              (fun s => { s with authCode := some c, waitingClients := [] }),
            ⟨200, .authSuccess⟩,
            sess.waitingClients.map (fun w => (w, 200)))
      ∧ ∀ other : String, other ≠ sid →
          lookupRec
              (updateSession sessions sid
                (fun s => { s with authCode := some c, waitingClients := [] })) other
            = lookupRec sessions other := by
  have h0 : stateP ≠ "" := stateParam_ne_empty stateP sid sv rest hsplit
  constructor
  · simp [handleOAuthCallback, jsTruthy, h0, hsplit, hsid, hsv, hlook, hst, hc]
  · intro other hother
    exact lookupRec_updateSession_ne sessions sid _ other hother

/-- **C5 witness.** Completing session `A`'s callback at the concrete
two-session table: `A`'s waiter 11 is released and `B`'s entry (state,
fields, waiter 22) is untouched. -/
theorem oauthCallback_session_isolation_witness :
    handleOAuthCallback twoSessionTable (some "okcode") none (some "sessA:stA")
        = (updateSession twoSessionTable "sessA"
              (fun s => { s with authCode := some "okcode", waitingClients := [] }),
            ⟨200, .authSuccess⟩, [(11, 200)])
      ∧ lookupRec
            (updateSession twoSessionTable "sessA"
              (fun s => { s with authCode := some "okcode", waitingClients := [] }))
            "sessB"
          = lookupRec twoSessionTable "sessB" := by
  have h := oauthCallback_session_isolation twoSessionTable none
    "sessA:stA" "sessA" "stA" [] (by decide) (by decide) (by decide)
    { state := "stA", authCode := none, authError := none
      waitingClients := [11], createdAt := 0 }
    (by decide) (by decide) "okcode" (by decide)
  exact ⟨h.1, h.2 "sessB" (by decide)⟩

/-! ## C10: `use_tool` with an explicit server routes directly -/

def firstChar (s : String) : Option Char :=
  s.data.head?

theorem firstChar_append (a b : String) :
    firstChar (a ++ b) = (firstChar a).orElse (fun _ => firstChar b) := by
  cases h : a.data with
  | nil => simp [firstChar, String.data_append, h, Option.orElse]
  | cons c cs => simp [firstChar, String.data_append, h, Option.orElse]

/-- The wrapped backend failure is never `use_tool`'s own not-found error:
their message texts differ already at the first character. -/
theorem callFailed_ne_notFound (toolName s e : String) :
    callFailedOnServerResult toolName s e ≠ toolNotFoundResult toolName := by
  intro h
  have h1 := congrArg (fun r => firstChar (r.contentTexts.headD "")) h
  have hF : firstChar "Failed to call tool \"" = some 'F' := by decide
  have hT : firstChar "Tool \"" = some 'T' := by decide
  simp [callFailedOnServerResult, toolNotFoundResult, firstChar_append, hF, hT,
    Option.orElse] at h1

/-- **C10.** When `use_tool` is invoked with an explicit `serverName` naming
a connected backend, the call is forwarded to that backend without any check
of the backend's tool list (the result is a function of `callToolR` alone);
a backend failure comes back as the wrapped `isError` result, which is never
`use_tool`'s own "not found on any connected server" error — that error is
produced only on the search path taken when `serverName` is omitted. -/
theorem useTool_explicit_server_routes_directly
    (clients : List (String × ClientConn)) (toolName : String) (args : Json)
    (s : String) (hs : s ≠ "") (conn : ClientConn)
    (hlook : lookupRec clients s = some conn) :
    useToolExecute clients toolName args (some s)
        = (match conn.callToolR toolName args with
           | .ok r => r
           | .error e => callFailedOnServerResult toolName s e)
      ∧ ∀ e, conn.callToolR toolName args = .error e →
          useToolExecute clients toolName args (some s)
              = callFailedOnServerResult toolName s e
            ∧ useToolExecute clients toolName args (some s)
              ≠ toolNotFoundResult toolName := by
  have hmain : useToolExecute clients toolName args (some s)
      = (match conn.callToolR toolName args with
         | .ok r => r
         | .error e => callFailedOnServerResult toolName s e) := by
    simp [useToolExecute, jsTruthy, hs, hlook]
  refine ⟨hmain, fun e he => ?_⟩
  rw [hmain, he]
  exact ⟨rfl, callFailed_ne_notFound toolName s e⟩

/-- A single connected backend that does not list `missing_tool` and whose
`callTool` rejects. -/
def oneClientNoTool : List (String × ClientConn) :=
  [("srv", { listToolsR := .ok ["other_tool"]
             callToolR := fun _ _ => .error "Tool missing_tool does not exist" })]

/-- **C10 witness.** Calling `use_tool` with `serverName = "srv"` for a tool
`srv` does not list: the backend's own failure comes back wrapped, not the
not-found error. -/
theorem useTool_explicit_server_routes_directly_witness :
    useToolExecute oneClientNoTool "missing_tool" (.obj []) (some "srv")
        = callFailedOnServerResult "missing_tool" "srv" "Tool missing_tool does not exist"
      ∧ useToolExecute oneClientNoTool "missing_tool" (.obj []) (some "srv")
        ≠ toolNotFoundResult "missing_tool" :=
  (useTool_explicit_server_routes_directly oneClientNoTool "missing_tool" (.obj [])
      "srv" (by decide)
      { listToolsR := .ok ["other_tool"]
        callToolR := fun _ _ => .error "Tool missing_tool does not exist" }
      rfl).2
    "Tool missing_tool does not exist" rfl

/-! ## C2: reload's result semantics -/

def exceptIsOk {ε α : Type} : Except ε α → Bool
  | .ok _ => true
  | .error _ => false

theorem length_beq_zero_eq_isEmpty (l : List String) : (l.length == 0) = l.isEmpty := by
  cases l <;> rfl

/-- Reload environment in which the configuration fetch throws before any
backend is touched. -/
def reloadFetchThrowsEnv : ReloadEnv :=
  { oldClients := []
    oldSnap := fun _ => ⟨.ok [], .ok [], .ok []⟩
    fetchResult := .error "Failed to fetch MCP configuration from URL: fetch failed"
    disconnectResult := fun _ => .ok ()
    connectResult := fun _ => .ok ()
    newSnap := fun _ => ⟨.ok [], .ok [], .ok []⟩ }

/-- **C2 counterexample.** When the configuration fetch throws, the
catch-all returns `success = false` together with an *empty* `failed` list,
so "success is true exactly when the failed list is empty" is violated. -/
theorem reload_success_iff_failed_empty_counterexample :
    ¬ (((reloadModel reloadFetchThrowsEnv none).success = true)
        ↔ ((reloadModel reloadFetchThrowsEnv none).failed = [])) := by
  decide

/-- **C2 (amended).** Reload never throws — it is a total function into the
`\x7bsuccess, message, connected, failed\x7d` record for every context and
every fetcher/client behaviour — and `success` is true exactly when the
fetch succeeded *and* the `failed` list is empty; on the catch path (fetch
threw) `success` is false even though `failed` is empty. -/
theorem reload_success_semantics (env : ReloadEnv) (ctx : Option ReloadContext) :
    (reloadModel env ctx).success
      = (exceptIsOk env.fetchResult && (reloadModel env ctx).failed.isEmpty) := by
  unfold reloadModel
  cases h : env.fetchResult with
  | error e => simp [exceptIsOk]
  | ok cfg => simp [exceptIsOk, length_beq_zero_eq_isEmpty]

/-! ## C7: parsing is not idempotent on normalised configurations -/

/-- An internal-shape entry (`\x7bname, transport, config\x7d`) has neither a
top-level `command` nor a top-level `url`, so it matches neither branch of
the Claude Code union schema. -/
theorem claudeServerParse_entryToJson (e : InternalEntry) :
    claudeServerParse (entryToJson e) = none := by
  cases hi : e.instruction with
  | none =>
      simp [entryToJson, optJsonField, hi, claudeServerParse, claudeStdioParse,
        claudeHttpParse, zReqField, lookupRec]
  | some i =>
      simp [entryToJson, optJsonField, hi, claudeServerParse, claudeStdioParse,
        claudeHttpParse, zReqField, lookupRec]

/-- **C7 (amended).** `parseMcpConfig` is *not* idempotent: feeding an
already-normalised (internal-shape) configuration back into it fails with a
validation error whenever the configuration contains at least one server,
because internal entries carry `transport`/`config` instead of the raw
schema's top-level `command`/`url`. (Idempotence survives only for the
entry-less configuration.) -/
theorem parse_rejects_normalised_nonempty (env : EnvMap) (cfg : InternalConfig)
    (h : cfg.mcpServers ≠ []) :
    parseMcpConfig env (internalToJson cfg) = none := by
  unfold parseMcpConfig internalToJson claudeConfigParse
  cases hm : cfg.mcpServers with
  | nil => exact absurd hm h
  | cons p rest =>
      simp [lookupRec, mapMOpt, claudeServerParse_entryToJson]

/-- The raw configuration of the counterexample: one stdio server. -/
def rawStdioCfg : Json :=
  .obj [("mcpServers", .obj [("a", .obj [("command", .str "echo")])])]

/-- What `parseMcpConfig` produces for `rawStdioCfg`. -/
def parsedStdioCfg : InternalConfig :=
  ⟨[("a", { name := "a"
            instruction := none
            transport := .stdio
            config := { command := some "echo", args := none, env := none
                        url := none, headers := none } })]⟩

/-- **C7 counterexample.** `parse(x)` succeeds for the one-server raw
configuration `x`, but `parse(parse(x))` fails instead of returning
`parse(x)`: the claimed idempotence does not hold. -/
theorem parse_idempotence_counterexample :
    parseMcpConfig [] rawStdioCfg = some parsedStdioCfg
      ∧ parseMcpConfig [] (internalToJson parsedStdioCfg) = none := by
  constructor <;> decide

/-- **C7 (amended) witness.** The amended theorem applied to the concrete
parsed one-server configuration. -/
theorem parse_rejects_normalised_nonempty_witness :
    parseMcpConfig [] (internalToJson parsedStdioCfg) = none :=
  parse_rejects_normalised_nonempty [] parsedStdioCfg (by decide)

/-! ## C8: disabled entries never appear in the resolved configuration -/

/-- Name `n` has an occurrence in `raw`'s `mcpServers` that parses and is
not flagged disabled. -/
def enabledIn (raw : Json) (n : String) : Prop :=
  ∃ cc, claudeConfigParse raw = some cc ∧
    ∃ e : ClaudeEntry, (n, e) ∈ cc.mcpServers ∧ entryDisabledFlag e ≠ some true

theorem transformEntry_none_iff (env : EnvMap) (name : String) (e : ClaudeEntry) :
    transformEntry env name e = none ↔ entryDisabledFlag e = some true := by
  cases e with
  | stdio c =>
      by_cases h : c.disabled = some true <;> simp [transformEntry, entryDisabledFlag, h]
  | http c =>
      by_cases h : c.disabled = some true <;> simp [transformEntry, entryDisabledFlag, h]

theorem keys_transform_fold (env : EnvMap) (l : List (String × ClaudeEntry))
    (acc : List (String × InternalEntry)) (n : String)
    (hn : n ∈ keysOf (l.foldl
        (fun acc p =>
          match transformEntry env p.1 p.2 with
          | none => acc
          | some ie => setRec acc p.1 ie) acc)) :
    n ∈ keysOf acc ∨ ∃ p ∈ l, p.1 = n ∧ transformEntry env p.1 p.2 ≠ none := by
  induction l generalizing acc with
  | nil => exact Or.inl hn
  | cons p rest ih =>
      rw [List.foldl_cons] at hn
      rcases ih _ hn with h1 | h1
      · cases hte : transformEntry env p.1 p.2 with
        | none => rw [hte] at h1; exact Or.inl h1
        | some ie =>
            rw [hte] at h1
            rcases keysOf_setRec_sub _ _ _ _ h1 with h2 | h2
            · exact Or.inl h2
            · exact Or.inr ⟨p, List.mem_cons_self p rest, h2.symm, by rw [hte]; simp⟩
      · rcases h1 with ⟨q, hq, hqn, hqt⟩
        exact Or.inr ⟨q, List.mem_cons_of_mem _ hq, hqn, hqt⟩

theorem mapMOpt_keyed_keys {α β : Type} (f : α → Option β)
    (l : List (String × α)) (l' : List (String × β))
    (h : mapMOpt (fun p => (f p.2).map (fun e => (p.1, e))) l = some l') :
    keysOf l' = keysOf l := by
  induction l generalizing l' with
  | nil =>
      simp [mapMOpt] at h
      subst h
      rfl
  | cons p rest ih =>
      simp only [mapMOpt] at h
      cases hf : f p.2 with
      | none => rw [hf] at h; simp at h
      | some e =>
          rw [hf] at h
          simp only [Option.map_some'] at h
          rcases Option.map_eq_some'.mp h with ⟨ys, hys, hl'⟩
          have hkeys := ih ys hys
          simp only [keysOf, List.map] at hkeys ⊢
          rw [← hl']
          simp [hkeys]

theorem parse_keys_enabled (env : EnvMap) (raw : Json) (cfg : InternalConfig)
    (h : parseMcpConfig env raw = some cfg) (n : String)
    (hn : n ∈ keysOf cfg.mcpServers) : enabledIn raw n := by
  unfold parseMcpConfig at h
  cases hcc : claudeConfigParse raw with
  | none => rw [hcc] at h; simp at h
  | some cc =>
      rw [hcc] at h
      simp only [Option.map_some', Option.some_bind] at h
      have hkeys : keysOf cfg.mcpServers
          = keysOf (transformClaudeCodeConfig env cc).mcpServers := by
        unfold validateConfig at h
        rcases Option.map_eq_some'.mp h with ⟨l', hl', hc⟩
        rw [← hc]
        exact mapMOpt_keyed_keys validateEntry _ l' hl'
      rw [hkeys] at hn
      unfold transformClaudeCodeConfig at hn
      rcases keys_transform_fold env cc.mcpServers [] n hn with h1 | h1
      · simp [keysOf] at h1
      · rcases h1 with ⟨p, hp, hpn, hpt⟩
        refine ⟨cc, hcc, p.2, ?_, ?_⟩
        · rw [← hpn]
          simpa using hp
        · intro hd
          exact hpt ((transformEntry_none_iff env p.1 p.2).mpr hd)

theorem keysOf_jsSpread_sub {V : Type} (base ov : List (String × V)) (n : String)
    (hn : n ∈ keysOf (jsSpread base ov)) : n ∈ keysOf base ∨ n ∈ keysOf ov := by
  unfold jsSpread keysOf at hn
  unfold keysOf
  rw [List.map_append] at hn
  rcases List.mem_append.mp hn with h | h
  · left
    rw [List.map_map] at h
    rcases List.mem_map.mp h with ⟨p, hp, he⟩
    exact List.mem_map.mpr ⟨p, hp, by simpa [Function.comp] using he⟩
  · right
    rcases List.mem_map.mp h with ⟨p, hp, he⟩
    exact List.mem_map.mpr ⟨p, (List.mem_filter.mp hp).1, he⟩

theorem keys_mergeDeep_fold (l : List (String × InternalEntry))
    (acc : List (String × InternalEntry)) (n : String)
    (hn : n ∈ keysOf (l.foldl
        (fun merged p =>
          match lookupRec merged p.1 with
          | some remoteServer =>
              setRec merged p.1
                { p.2 with config := deepMergeEntryConfig remoteServer.config p.2.config }
          | none => merged ++ [(p.1, p.2)]) acc)) :
    n ∈ keysOf acc ∨ ∃ p ∈ l, p.1 = n := by
  induction l generalizing acc with
  | nil => exact Or.inl hn
  | cons p rest ih =>
      rw [List.foldl_cons] at hn
      rcases ih _ hn with h1 | h1
      · cases hlk : lookupRec acc p.1 with
        | some remoteServer =>
            rw [hlk] at h1
            rcases keysOf_setRec_sub _ _ _ _ h1 with h2 | h2
            · exact Or.inl h2
            · exact Or.inr ⟨p, List.mem_cons_self p rest, h2.symm⟩
        | none =>
            rw [hlk] at h1
            unfold keysOf at h1
            rw [List.map_append] at h1
            rcases List.mem_append.mp h1 with h2 | h2
            · exact Or.inl h2
            · have hn2 : n = p.1 := by simpa using h2
              exact Or.inr ⟨p, List.mem_cons_self p rest, hn2.symm⟩
      · rcases h1 with ⟨q, hq, hqn⟩
        exact Or.inr ⟨q, List.mem_cons_of_mem _ hq, hqn⟩

theorem keys_merge_sub (strat : MergeStrategy) (lc rc : InternalConfig) (n : String)
    (hn : n ∈ keysOf (mergeConfigurations strat lc rc).mcpServers) :
    n ∈ keysOf lc.mcpServers ∨ n ∈ keysOf rc.mcpServers := by
  cases strat with
  | localPriority => exact (keysOf_jsSpread_sub _ _ n hn).symm
  | remotePriority => exact keysOf_jsSpread_sub _ _ n hn
  | mergeDeep =>
      rcases keys_mergeDeep_fold lc.mcpServers rc.mcpServers n hn with h | h
      · exact Or.inr h
      · rcases h with ⟨p, hp, hpn⟩
        exact Or.inl (List.mem_map.mpr ⟨p, hp, hpn⟩)

/-- Which sources must hold an enabled occurrence, per fetch mode. -/
def enabledDisj (mode : FetchMode) (n : String) : Prop :=
  match mode with
  | .localOnly raw => enabledIn raw n
  | .remoteOnly raw => enabledIn raw n
  | .both localRaw remoteRaw _ => enabledIn localRaw n ∨ enabledIn remoteRaw n

/-- **C8.** Whatever the source (local file, remote URL, or the merge of
both under any strategy), every backend name appearing in the resolved
configuration has, in at least one of the raw sources, an occurrence whose
`disabled` flag is not `true`: an entry flagged disabled never appears in
the result of `fetchConfiguration`. -/
theorem disabled_never_in_resolved (env : EnvMap) (mode : FetchMode)
    (cfg : InternalConfig) (h : fetchConfigurationModel env mode = some cfg)
    (n : String) (hn : n ∈ keysOf cfg.mcpServers) :
    enabledDisj mode n := by
  cases mode with
  | localOnly raw => exact parse_keys_enabled env raw cfg h n hn
  | remoteOnly raw => exact parse_keys_enabled env raw cfg h n hn
  | both localRaw remoteRaw strat =>
      show enabledIn localRaw n ∨ enabledIn remoteRaw n
      have h' : ((parseMcpConfig env localRaw).bind (fun localConfig =>
          (parseMcpConfig env remoteRaw).bind (fun remoteConfig =>
            some (mergeConfigurations strat localConfig remoteConfig)))) = some cfg := h
      clear h
      cases hl : parseMcpConfig env localRaw with
      | none => rw [hl] at h'; simp at h'
      | some lc =>
          rw [hl] at h'
          cases hr : parseMcpConfig env remoteRaw with
          | none => rw [hr] at h'; simp at h'
          | some rc =>
              rw [hr] at h'
              simp only [Option.some_bind, Option.some_inj] at h'
              rw [← h'] at hn
              rcases keys_merge_sub strat lc rc n hn with h1 | h1
              · exact Or.inl (parse_keys_enabled env localRaw lc hl n h1)
              · exact Or.inr (parse_keys_enabled env remoteRaw rc hr n h1)

/-- Local raw source of the C8 witness: `a` enabled, `b` disabled. -/
def rawLocalW : Json :=
  .obj [("mcpServers", .obj
    [("a", .obj [("command", .str "run-a")]),
     ("b", .obj [("command", .str "run-b"), ("disabled", .boolean true)])])]

/-- Remote raw source of the C8 witness: only a disabled `c`. -/
def rawRemoteW : Json :=
  .obj [("mcpServers", .obj
    [("c", .obj [("command", .str "run-c"), ("disabled", .boolean true)])])]

/-- The resolved configuration for the two witness sources under
`local-priority`: only `a` survives. -/
def resolvedW : InternalConfig :=
  ⟨[("a", { name := "a"
            instruction := none
            transport := .stdio
            config := { command := some "run-a", args := none, env := none
                        url := none, headers := none } })]⟩

/-- **C8 witness.** The theorem at the concrete merged fetch: the only
resolved name `a` is enabled in one of the sources (the disabled `b` and `c`
are gone). -/
theorem disabled_never_in_resolved_witness :
    enabledIn rawLocalW "a" ∨ enabledIn rawRemoteW "a" :=
  disabled_never_in_resolved [] (.both rawLocalW rawRemoteW .localPriority)
    resolvedW (by decide) "a" (by decide)

end PowerTool
